import Mathlib

/-!
# A shallow embedding of `rustsqlite`'s `src/cursor.rs`

The cursor module is a thin safe wrapper around the SQLite C API: every
operation is one or more calls into the foreign engine.  We embed it by
modelling the engine's side of the FFI boundary as a snapshot record
(`Engine`) of the responses the native layer would give right now, and by
instrumenting every cursor operation with the list of native calls it
performs, so that call-order and call-count properties (step called once,
finalize called exactly once per lifetime, fail-fast binding) are provable.

Rust panics (`assert!`, `Option::unwrap`, `panic!`, the `CString` null
failure) are modelled by the `RustResult` sum; the `Result<_, ResultCode>`
error channel is modelled by `Except ResultCode`.
-/

set_option autoImplicit false

namespace Rustsqlite

/-- Modelled from the spec: the engine's `ResultCode` vocabulary — `OK`,
`ROW`, `DONE`, and the various error codes, passed through verbatim.  (The
`ResultCode` enum lives in `types.rs`, which is not part of the provided
source; `cursor.rs` only compares against `SQLITE_OK`, `SQLITE_ROW` and
`SQLITE_DONE` and otherwise moves codes around untouched, so the remaining
codes are carried by their numeric value.) -/
inductive ResultCode where
  | SQLITE_OK
  | SQLITE_ROW
  | SQLITE_DONE
  | errorCode (n : Nat)
  deriving DecidableEq, Repr

/-- An uninterpreted 64-bit floating-point payload.  `cursor.rs` never
computes with `f64` values — it only moves them between the engine and the
value model — so the bit pattern is carried opaquely. -/
structure F64 where
  bits : Nat
  deriving DecidableEq, Repr

/-- Modelled from the spec: the tagged value model (`BindArg` in the missing
`types.rs`): `Text` (owned, engine copies), `StaticText` (borrowed, no copy),
`Blob`, `Integer` (machine-width), `Integer64`, `Float64`, `Null`.
`cursor.rs` uses the same constructors (`Integer`, `Float64`, `Text`, `Blob`,
`Null`) for decoded column values in `step_row`. -/
inductive BindArg where
  | Text (s : String)
  | StaticText (s : String)
  | Blob (b : List Nat)
  | Integer (n : Int)
  | Integer64 (n : Int)
  | Float64 (f : F64)
  | Null
  deriving DecidableEq, Repr

/-- The outcome of a Rust computation that may fail the task (panic):
`assert!`, `Option::unwrap` on `None`, `panic!`, `CString` null failure. -/
inductive RustResult (α : Type) where
  | ok (a : α)
  | panicked (msg : String)
  deriving DecidableEq, Repr

/-- The type `SqliteResult<T> = Result<T, ResultCode>` from `types.rs`. -/
abbrev SqliteResult (α : Type) := Except ResultCode α

/-- The `ColumnType` enum (`SQLITE_INTEGER` … `SQLITE_NULL`) matched on by
`get_column_type` and `step_row`. -/
inductive ColumnType where
  | SQLITE_INTEGER
  | SQLITE_FLOAT
  | SQLITE_TEXT
  | SQLITE_BLOB
  | SQLITE_NULL
  deriving DecidableEq, Repr

/-- The type `RowMap = HashMap<String, BindArg>`, embedded as an association list in
column order.  `insertRow` below mirrors `HashMap::insert` (returns the
previously bound value, if any). -/
abbrev RowMap := List (String × BindArg)

/-- A `HashMap::find`-style lookup on the association list. -/
def lookupRow : RowMap → String → Option BindArg
  | [], _ => none
  | (k0, v0) :: rest, k => if k0 = k then some v0 else lookupRow rest k

/-- The map operation `HashMap::insert`: stores `v` under `k` and returns the value previously
bound to `k` (`none` when `k` was absent), together with the updated map. -/
def insertRow : RowMap → String → BindArg → Option BindArg × RowMap
  | [], k, v => (none, [(k, v)])
  | (k0, v0) :: rest, k, v =>
    if k0 = k then (some v0, (k0, v) :: rest)
    else
      let r := insertRow rest k v
      (r.1, (k0, v0) :: r.2)

/-- One call across the FFI boundary into the SQLite engine.  Each cursor
operation below reports the exact sequence of such calls it performs. -/
inductive NativeCall where
  | finalize
  | reset
  | clearBindings
  | step
  | dataCount
  | columnName (i : Nat)
  | columnType (i : Nat)
  | columnInt (i : Nat)
  | columnInt64 (i : Nat)
  | columnDouble (i : Nat)
  | columnText (i : Nat)
  | columnBlob (i : Nat)
  | columnBytes (i : Nat)
  | bindText (i : Nat) (v : String) (transient : Bool)
  | bindBlob (i : Nat) (v : List Nat)
  | bindInt (i : Nat) (v : Int)
  | bindInt64 (i : Nat) (v : Int)
  | bindDouble (i : Nat) (v : F64)
  | bindNull (i : Nat)
  | bindParameterIndex (name : String)
  deriving DecidableEq, Repr

/-- A snapshot of the native layer's responses: what each `sqlite3_*` call
would return if made now.  Data pointers that may be null are modelled as
`Option` (with `none` for a null pointer); `column_bytes` lengths are folded
into the buffer payloads. -/
structure Engine where
  stepResult : ResultCode
  resetResult : ResultCode
  clearBindingsResult : ResultCode
  dataCount : Nat
  columnNamePtr : Nat → Option String
  columnTypeRaw : Nat → Int
  columnInt : Nat → Int
  columnInt64 : Nat → Int
  columnDouble : Nat → F64
  columnTextPtr : Nat → Option String
  columnBlobPtr : Nat → Option (List Nat)
  bindResult : NativeCall → ResultCode
  bindParameterIndex : String → Nat

/-- Embeds `Cursor::reset`: `sqlite3_reset(self.stmt)`, returned verbatim. -/
def reset (e : Engine) : ResultCode × List NativeCall :=
  (e.resetResult, [.reset])

/-- Embeds `Cursor::clear_bindings`: `sqlite3_clear_bindings(self.stmt)`, returned
verbatim. -/
def clear_bindings (e : Engine) : ResultCode × List NativeCall :=
  (e.clearBindingsResult, [.clearBindings])

/-- Embeds `Cursor::step`: `sqlite3_step(self.stmt)`, returned verbatim. -/
def step (e : Engine) : ResultCode × List NativeCall :=
  (e.stepResult, [.step])

/-- Embeds `Cursor::get_column_count`: `sqlite3_data_count(self.stmt)`. -/
def get_column_count (e : Engine) : Nat × List NativeCall :=
  (e.dataCount, [.dataCount])

/-- Embeds `Cursor::get_column_name`: wraps `sqlite3_column_name` in
`CString::new(_, false)` and decodes it with no null-pointer branch of its
own; when the engine hands back a null name pointer the `CString` accessor
fails the task.  The public signature offers no `Option`. -/
def get_column_name (e : Engine) (i : Nat) : RustResult String × List NativeCall :=
  match e.columnNamePtr i with
  | some s => (.ok s, [.columnName i])
  | none => (.panicked "CString is null", [.columnName i])

/-- Embeds `Cursor::get_column_type`: maps the raw `sqlite3_column_type` code
1..5 onto the closed `ColumnType` enum, and panics on anything else. -/
def get_column_type (e : Engine) (i : Nat) : RustResult ColumnType × List NativeCall :=
  let ct := e.columnTypeRaw i
  let res : RustResult ColumnType :=
    if ct = 1 then .ok .SQLITE_INTEGER
    else if ct = 2 then .ok .SQLITE_FLOAT
    else if ct = 3 then .ok .SQLITE_TEXT
    else if ct = 4 then .ok .SQLITE_BLOB
    else if ct = 5 then .ok .SQLITE_NULL
    else .panicked "sqlite internal error: Got an unknown column type back from the library."
  (res, [.columnType i])

/-- Embeds `Cursor::get_int`: `sqlite3_column_int`, no null-pointer possibility. -/
def get_int (e : Engine) (i : Nat) : Int × List NativeCall :=
  (e.columnInt i, [.columnInt i])

/-- Embeds `Cursor::get_i64`: `sqlite3_column_int64`. -/
def get_i64 (e : Engine) (i : Nat) : Int × List NativeCall :=
  (e.columnInt64 i, [.columnInt64 i])

/-- Embeds `Cursor::get_f64`: `sqlite3_column_double`. -/
def get_f64 (e : Engine) (i : Nat) : F64 × List NativeCall :=
  (e.columnDouble i, [.columnDouble i])

/-- Embeds `Cursor::get_text`: `sqlite3_column_text` plus `sqlite3_column_bytes`;
returns `None` when the data pointer is null, otherwise `Some` of the
decoded buffer. -/
def get_text (e : Engine) (i : Nat) : Option String × List NativeCall :=
  let ptr := e.columnTextPtr i
  let r : Option String :=
    match ptr with
    | none => none
    | some s => some s
  (r, [.columnText i, .columnBytes i])

/-- Embeds `Cursor::get_blob`: `sqlite3_column_blob` plus `sqlite3_column_bytes`;
returns `None` when the data pointer is null, otherwise `Some` of the
bytes. -/
def get_blob (e : Engine) (i : Nat) : Option (List Nat) × List NativeCall :=
  let ptr := e.columnBlobPtr i
  let r : Option (List Nat) :=
    match ptr with
    | none => none
    | some b => some b
  (r, [.columnBlob i, .columnBytes i])

/-- Embeds `Cursor::get_bind_index`: `sqlite3_bind_parameter_index`. -/
def get_bind_index (e : Engine) (name : String) : Nat × List NativeCall :=
  (e.bindParameterIndex name, [.bindParameterIndex name])

/-- The single native bind call `Cursor::bind_param` makes for a given
1-based index and `BindArg` variant: `Text` uses `sqlite3_bind_text` with
`SQLITE_TRANSIENT` (engine copies), `StaticText` uses it with
`SQLITE_STATIC` (no copy), `Blob` uses `sqlite3_bind_blob` with
`SQLITE_TRANSIENT`, and the scalar variants use their dedicated calls. -/
def bindCallOf (i : Nat) : BindArg → NativeCall
  | .Text v => .bindText i v true
  | .StaticText v => .bindText i v false
  | .Blob v => .bindBlob i v
  | .Integer v => .bindInt i v
  | .Integer64 v => .bindInt64 i v
  | .Float64 v => .bindDouble i v
  | .Null => .bindNull i

/-- Embeds `Cursor::bind_param`: performs the one bind call selected by the
variant and returns the engine's result code verbatim. -/
def bind_param (e : Engine) (i : Nat) (value : BindArg) : ResultCode × List NativeCall :=
  let call := bindCallOf i value
  (e.bindResult call, [call])

/-- The loop body of `Cursor::bind_params`: the SQL parameter index starts
from 1, each value is bound in sequence order, and the first non-`OK` code
is returned at once without binding the remaining values. -/
def bind_params_loop (e : Engine) : Nat → List BindArg → ResultCode × List NativeCall
  | _, [] => (.SQLITE_OK, [])
  | i, v :: rest =>
    let r := bind_param e i v
    if r.1 = .SQLITE_OK then
      let r2 := bind_params_loop e (i + 1) rest
      (r2.1, r.2 ++ r2.2)
    else
      (r.1, r.2)

/-- Embeds `Cursor::bind_params`: binds the values at positional indices 1.. in
order, fail-fast. -/
def bind_params (e : Engine) (values : List BindArg) : ResultCode × List NativeCall :=
  bind_params_loop e 1 values

/-- The per-column body of `step_row`'s `while` loop after the name and
type have been read: decode the value according to the reported
`ColumnType` and insert it into the row under construction.  The `Text` and
`Blob` arms call `.unwrap()` on the accessor's `Option`, so a null data
pointer panics here.  Returns `HashMap::insert`'s result (the previously
bound value) together with the updated row. -/
def step_row_col (e : Engine) (i : Nat) (name : String) (coltype : ColumnType)
    (sqlrow : RowMap) : RustResult (Option BindArg × RowMap) × List NativeCall :=
  match coltype with
  | .SQLITE_INTEGER =>
    let r := get_int e i
    (.ok (insertRow sqlrow name (.Integer r.1)), r.2)
  | .SQLITE_FLOAT =>
    let r := get_f64 e i
    (.ok (insertRow sqlrow name (.Float64 r.1)), r.2)
  | .SQLITE_TEXT =>
    let r := get_text e i
    match r.1 with
    | some s => (.ok (insertRow sqlrow name (.Text s)), r.2)
    | none => (.panicked "called Option::unwrap on a None value", r.2)
  | .SQLITE_BLOB =>
    let r := get_blob e i
    match r.1 with
    | some b => (.ok (insertRow sqlrow name (.Blob b)), r.2)
    | none => (.panicked "called Option::unwrap on a None value", r.2)
  | .SQLITE_NULL =>
    (.ok (insertRow sqlrow name .Null), [])

/-- The `while i < column_cnt` loop of `step_row`, phrased with the number
of remaining columns as the recursion fuel (so `fuel = column_cnt - i` and
the loop visits `i, i+1, …` in order).  Each iteration reads the column's
name and type, decodes the value, and `assert!`s that the insertion found
no previous binding ("Duplicate column name for sqlrow!"). -/
def step_row_loop (e : Engine) : Nat → Nat → RowMap → RustResult RowMap × List NativeCall
  | 0, _, sqlrow => (.ok sqlrow, [])
  | fuel + 1, i, sqlrow =>
    let nr := get_column_name e i
    match nr.1 with
    | .panicked msg => (.panicked msg, nr.2)
    | .ok name =>
      let tr := get_column_type e i
      match tr.1 with
      | .panicked msg => (.panicked msg, nr.2 ++ tr.2)
      | .ok coltype =>
        let dr := step_row_col e i name coltype sqlrow
        match dr.1 with
        | .panicked msg => (.panicked msg, nr.2 ++ tr.2 ++ dr.2)
        | .ok res =>
          if res.1.isNone then
            let rest := step_row_loop e fuel (i + 1) res.2
            (rest.1, nr.2 ++ tr.2 ++ dr.2 ++ rest.2)
          else
            (.panicked "Duplicate column name for sqlrow!", nr.2 ++ tr.2 ++ dr.2)

/-- Embeds `Cursor::step_row`: calls `step` once; on `SQLITE_ROW` materializes the
row, on `SQLITE_DONE` yields `Ok(None)`, and on any other code yields
`Err(code)` without touching the columns. -/
def step_row (e : Engine) : RustResult (SqliteResult (Option RowMap)) × List NativeCall :=
  let sr := step e
  let is_row := sr.1
  if is_row = .SQLITE_ROW then
    let cr := get_column_count e
    let lr := step_row_loop e cr.1 0 []
    match lr.1 with
    | .panicked msg => (.panicked msg, sr.2 ++ cr.2 ++ lr.2)
    | .ok sqlrow => (.ok (.ok (some sqlrow)), sr.2 ++ cr.2 ++ lr.2)
  else if is_row = .SQLITE_DONE then
    (.ok (.ok none), sr.2)
  else
    (.ok (.error is_row), sr.2)

/-- The body of the `get_column_names` `while` loop, fuel-phrased like
`step_row_loop`. -/
def get_column_names_loop (e : Engine) : Nat → Nat → RustResult (List String) × List NativeCall
  | 0, _ => (.ok [], [])
  | fuel + 1, i =>
    let nr := get_column_name e i
    match nr.1 with
    | .panicked msg => (.panicked msg, nr.2)
    | .ok name =>
      let rest := get_column_names_loop e fuel (i + 1)
      match rest.1 with
      | .panicked msg => (.panicked msg, nr.2 ++ rest.2)
      | .ok names => (.ok (name :: names), nr.2 ++ rest.2)

/-- Embeds `Cursor::get_column_names`: all column names in index order. -/
def get_column_names (e : Engine) : RustResult (List String) × List NativeCall :=
  let cr := get_column_count e
  let lr := get_column_names_loop e cr.1 0
  (lr.1, cr.2 ++ lr.2)

/-- Embeds `impl Drop for Cursor`: the destructor performs exactly one native
call, `sqlite3_finalize(self.stmt)`. -/
def drop_calls : List NativeCall := [.finalize]

/-- One invocation of a public `Cursor` method, for lifetime traces. -/
inductive CursorOp where
  | opReset
  | opClearBindings
  | opStep
  | opStepRow
  | opGetBlob (i : Nat)
  | opGetInt (i : Nat)
  | opGetI64 (i : Nat)
  | opGetF64 (i : Nat)
  | opGetText (i : Nat)
  | opGetBindIndex (name : String)
  | opGetColumnCount
  | opGetColumnName (i : Nat)
  | opGetColumnType (i : Nat)
  | opGetColumnNames
  | opBindParams (values : List BindArg)
  | opBindParam (i : Nat) (v : BindArg)

/-- The native calls a public method performs, given the engine snapshot it
runs against. -/
def opCalls (e : Engine) : CursorOp → List NativeCall
  | .opReset => (reset e).2
  | .opClearBindings => (clear_bindings e).2
  | .opStep => (step e).2
  | .opStepRow => (step_row e).2
  | .opGetBlob i => (get_blob e i).2
  | .opGetInt i => (get_int e i).2
  | .opGetI64 i => (get_i64 e i).2
  | .opGetF64 i => (get_f64 e i).2
  | .opGetText i => (get_text e i).2
  | .opGetBindIndex name => (get_bind_index e name).2
  | .opGetColumnCount => (get_column_count e).2
  | .opGetColumnName i => (get_column_name e i).2
  | .opGetColumnType i => (get_column_type e i).2
  | .opGetColumnNames => (get_column_names e).2
  | .opBindParams values => (bind_params e values).2
  | .opBindParam i v => (bind_param e i v).2

/-- A whole cursor lifetime: any sequence of public method invocations
(each against the engine snapshot current at that moment), followed by the
destructor.  The trace is every native call made over the lifetime. -/
def lifetimeTrace (steps : List (Engine × CursorOp)) : List NativeCall :=
  (steps.map (fun p => opCalls p.1 p.2)).flatten ++ drop_calls

/-! ## Spec-side descriptions

The following definitions restate, in the spec's words (§4.3 of `spec.md`),
what a decoded column value and a materialized row should be.  They are
deliberately written from the spec, not from the code, so that `step_row`'s
behaviour can be compared against them. -/

/-- Modelled from the spec (§4.3, column decoding contract): the value the
spec expects for column `i` — decode according to the dynamically reported
storage class (raw codes 1..5 = Integer/Float64/Text/Blob/Null); `Text` and
`Blob` are only available when the engine's data pointer is non-null. -/
def specDecode (e : Engine) (i : Nat) : Option BindArg :=
  if e.columnTypeRaw i = 1 then some (.Integer (e.columnInt i))
  else if e.columnTypeRaw i = 2 then some (.Float64 (e.columnDouble i))
  else if e.columnTypeRaw i = 3 then (e.columnTextPtr i).map (fun s => .Text s)
  else if e.columnTypeRaw i = 4 then (e.columnBlobPtr i).map (fun b => .Blob b)
  else if e.columnTypeRaw i = 5 then some .Null
  else none

/-- Modelled from the spec (§4.3): the materialized row — one entry per
column index `0 ≤ i < cnt`, keyed by the column's name, holding the decoded
value. -/
def rowSpec (e : Engine) (nm : Nat → String) (cnt : Nat) : RowMap :=
  (List.range cnt).map (fun i => (nm i, (specDecode e i).getD .Null))

/-- Well-formedness of the engine's responses for column `j`: the name
pointer is non-null (and decodes to `nm j`), the raw type code is in the
closed set 1..5, and the data pointer is non-null when the reported type is
`Text` (3) or `Blob` (4).  These are exactly the conditions under which the
per-column body of `step_row` cannot panic for reasons other than a
duplicate name. -/
def colOk (e : Engine) (nm : Nat → String) (j : Nat) : Prop :=
  e.columnNamePtr j = some (nm j)
  ∧ 1 ≤ e.columnTypeRaw j
  ∧ e.columnTypeRaw j ≤ 5
  ∧ (e.columnTypeRaw j = 3 → (e.columnTextPtr j).isSome = true)
  ∧ (e.columnTypeRaw j = 4 → (e.columnBlobPtr j).isSome = true)

instance (e : Engine) (nm : Nat → String) (j : Nat) : Decidable (colOk e nm j) := by
  unfold colOk
  infer_instance

/-- The native calls that read the current row's columns (the calls
`step_row` makes beyond `step` and `data_count`). -/
def isColumnCall : NativeCall → Bool
  | .columnName _ => true
  | .columnType _ => true
  | .columnInt _ => true
  | .columnInt64 _ => true
  | .columnDouble _ => true
  | .columnText _ => true
  | .columnBlob _ => true
  | .columnBytes _ => true
  | _ => false

/-- The native bind call `bind_params` issues for the `k`-th (0-based)
element of `vs`: the value is bound at 1-based positional index `k + 1`. -/
def bindCallAt (vs : List BindArg) (k : Nat) : NativeCall :=
  bindCallOf (k + 1) (vs.getD k .Null)

/-! ## Concrete engine snapshots

Small concrete `Engine` values used to evaluate the definitions on explicit
inputs: a two-column result row (`id` integer, `name` text), an engine
whose raw column-type code equals the column index, an engine reporting the
same name for every column, and an engine that rejects text bindings. -/

def eDemo : Engine :=
  { stepResult := .SQLITE_ROW
    resetResult := .SQLITE_OK
    clearBindingsResult := .SQLITE_OK
    dataCount := 2
    columnNamePtr := fun i => if i = 0 then some "id" else if i = 1 then some "name" else none
    columnTypeRaw := fun i => if i = 0 then 1 else 3
    columnInt := fun _ => 7
    columnInt64 := fun _ => 7
    columnDouble := fun _ => ⟨0⟩
    columnTextPtr := fun i => if i = 1 then some "x" else none
    columnBlobPtr := fun i => if i = 0 then some [0, 1, 2, 255] else none
    bindResult := fun _ => .SQLITE_OK
    bindParameterIndex := fun _ => 0 }

def nmDemo : Nat → String := fun i => if i = 0 then "id" else "name"

def eTypes : Engine :=
  { eDemo with
    stepResult := .SQLITE_DONE
    columnTypeRaw := fun i => (i : Int) }

def eDup : Engine :=
  { eDemo with
    dataCount := 2
    columnNamePtr := fun _ => some "x"
    columnTypeRaw := fun _ => 5 }

def eBindFail : Engine :=
  { eDemo with
    bindResult := fun c =>
      match c with
      | .bindText _ _ _ => .errorCode 25
      | _ => .SQLITE_OK }

/-! ## Association-list (`HashMap`) lemmas -/

theorem insertRow_fst (m : RowMap) (k : String) (v : BindArg) :
    (insertRow m k v).1 = lookupRow m k := by
  induction m with
  | nil => rfl
  | cons p rest ih =>
    obtain ⟨k0, v0⟩ := p
    by_cases h : k0 = k <;> simp [insertRow, lookupRow, h, ih]

theorem insertRow_snd_of_none (m : RowMap) (k : String) (v : BindArg)
    (h : lookupRow m k = none) : (insertRow m k v).2 = m ++ [(k, v)] := by
  induction m with
  | nil => rfl
  | cons p rest ih =>
    obtain ⟨k0, v0⟩ := p
    by_cases hk : k0 = k
    · simp [lookupRow, hk] at h
    · simp only [lookupRow, if_neg hk] at h
      simp [insertRow, hk, ih h]

theorem lookupRow_append_of_none (m1 m2 : RowMap) (k : String)
    (h : lookupRow m1 k = none) : lookupRow (m1 ++ m2) k = lookupRow m2 k := by
  induction m1 with
  | nil => rfl
  | cons p rest ih =>
    obtain ⟨k0, v0⟩ := p
    by_cases hk : k0 = k
    · simp [lookupRow, hk] at h
    · simp only [lookupRow, if_neg hk] at h
      simp [lookupRow, hk, ih h]

theorem lookupRow_append_of_some (m1 m2 : RowMap) (k : String) (v : BindArg)
    (h : lookupRow m1 k = some v) : lookupRow (m1 ++ m2) k = some v := by
  induction m1 with
  | nil => simp [lookupRow] at h
  | cons p rest ih =>
    obtain ⟨k0, v0⟩ := p
    by_cases hk : k0 = k
    · simp only [lookupRow, if_pos hk] at h
      simp [lookupRow, hk, h]
    · simp only [lookupRow, if_neg hk] at h
      simp [lookupRow, hk, ih h]

theorem lookupRow_eq_none_iff (m : RowMap) (k : String) :
    lookupRow m k = none ↔ k ∉ m.map Prod.fst := by
  induction m with
  | nil => simp [lookupRow]
  | cons p rest ih =>
    obtain ⟨k0, v0⟩ := p
    by_cases hk : k0 = k <;> simp [lookupRow, hk, ih] <;> tauto

/-! ## Trace lemmas for the column accessors -/

theorem get_column_name_trace (e : Engine) (i : Nat) :
    (get_column_name e i).2 = [.columnName i] := by
  unfold get_column_name
  cases e.columnNamePtr i <;> rfl

theorem get_column_type_trace (e : Engine) (i : Nat) :
    (get_column_type e i).2 = [.columnType i] := rfl

theorem step_row_col_trace (e : Engine) (i : Nat) (name : String)
    (ct : ColumnType) (sqlrow : RowMap) :
    ∀ c, c ∈ (step_row_col e i name ct sqlrow).2 → isColumnCall c = true := by
  cases ct <;>
    simp only [step_row_col, get_int, get_f64, get_text, get_blob] <;>
    intro c hc
  · simp at hc; simp [hc, isColumnCall]
  · simp at hc; simp [hc, isColumnCall]
  · rcases h : e.columnTextPtr i with _ | s <;> simp [h] at hc <;>
      rcases hc with hc | hc <;> simp [hc, isColumnCall]
  · rcases h : e.columnBlobPtr i with _ | b <;> simp [h] at hc <;>
      rcases hc with hc | hc <;> simp [hc, isColumnCall]
  · simp at hc

theorem step_row_loop_trace (e : Engine) :
    ∀ (fuel i : Nat) (sqlrow : RowMap) (c : NativeCall),
      c ∈ (step_row_loop e fuel i sqlrow).2 → isColumnCall c = true := by
  intro fuel
  induction fuel with
  | zero =>
    intro i sqlrow c hc
    simp [step_row_loop] at hc
  | succ fuel ih =>
    intro i sqlrow c hc
    simp only [step_row_loop] at hc
    repeat' split at hc
    · rw [get_column_name_trace] at hc
      simp at hc
      simp [hc, isColumnCall]
    · simp only [get_column_name_trace, get_column_type_trace, List.mem_append,
        List.mem_singleton] at hc
      rcases hc with hc | hc <;> simp [hc, isColumnCall]
    · simp only [get_column_name_trace, get_column_type_trace, List.mem_append,
        List.mem_singleton] at hc
      rcases hc with (hc | hc) | hc
      · simp [hc, isColumnCall]
      · simp [hc, isColumnCall]
      · exact step_row_col_trace e i _ _ _ c hc
    · simp only [get_column_name_trace, get_column_type_trace, List.mem_append,
        List.mem_singleton] at hc
      rcases hc with ((hc | hc) | hc) | hc
      · simp [hc, isColumnCall]
      · simp [hc, isColumnCall]
      · exact step_row_col_trace e i _ _ _ c hc
      · exact ih (i + 1) _ c hc
    · simp only [get_column_name_trace, get_column_type_trace, List.mem_append,
        List.mem_singleton] at hc
      rcases hc with (hc | hc) | hc
      · simp [hc, isColumnCall]
      · simp [hc, isColumnCall]
      · exact step_row_col_trace e i _ _ _ c hc

theorem get_column_names_loop_trace (e : Engine) :
    ∀ (fuel i : Nat) (c : NativeCall),
      c ∈ (get_column_names_loop e fuel i).2 → isColumnCall c = true := by
  intro fuel
  induction fuel with
  | zero =>
    intro i c hc
    simp [get_column_names_loop] at hc
  | succ fuel ih =>
    intro i c hc
    simp only [get_column_names_loop] at hc
    repeat' split at hc
    · rw [get_column_name_trace] at hc
      simp at hc
      simp [hc, isColumnCall]
    · simp only [get_column_name_trace, List.mem_append, List.mem_singleton] at hc
      rcases hc with hc | hc
      · simp [hc, isColumnCall]
      · exact ih (i + 1) c hc
    · simp only [get_column_name_trace, List.mem_append, List.mem_singleton] at hc
      rcases hc with hc | hc
      · simp [hc, isColumnCall]
      · exact ih (i + 1) c hc

/-! ## One iteration of the `step_row` while-loop -/

theorem step_row_loop_succ_fst (e : Engine) (nm : Nat → String) (fuel i : Nat)
    (sqlrow : RowMap) (hc : colOk e nm i) :
    (step_row_loop e (fuel + 1) i sqlrow).1 =
      if lookupRow sqlrow (nm i) = none then
        (step_row_loop e fuel (i + 1)
          (sqlrow ++ [(nm i, (specDecode e i).getD .Null)])).1
      else RustResult.panicked "Duplicate column name for sqlrow!" := by
  obtain ⟨hname, hlo, hhi, htext, hblob⟩ := hc
  have hct : e.columnTypeRaw i = 1 ∨ e.columnTypeRaw i = 2 ∨ e.columnTypeRaw i = 3
      ∨ e.columnTypeRaw i = 4 ∨ e.columnTypeRaw i = 5 := by omega
  have hins := insertRow_fst sqlrow (nm i)
  by_cases hdup : lookupRow sqlrow (nm i) = none
  · rw [if_pos hdup]
    have hsnd := insertRow_snd_of_none sqlrow (nm i)
    rcases hct with h | h | h | h | h
    · simp [step_row_loop, get_column_name, hname, get_column_type, h,
        step_row_col, get_int, hins, hsnd, hdup, specDecode]
    · simp [step_row_loop, get_column_name, hname, get_column_type, h,
        step_row_col, get_f64, hins, hsnd, hdup, specDecode]
    · obtain ⟨s, hs⟩ := Option.isSome_iff_exists.mp (htext h)
      simp [step_row_loop, get_column_name, hname, get_column_type, h,
        step_row_col, get_text, hs, hins, hsnd, hdup, specDecode]
    · obtain ⟨b, hb⟩ := Option.isSome_iff_exists.mp (hblob h)
      simp [step_row_loop, get_column_name, hname, get_column_type, h,
        step_row_col, get_blob, hb, hins, hsnd, hdup, specDecode]
    · simp [step_row_loop, get_column_name, hname, get_column_type, h,
        step_row_col, hins, hsnd, hdup, specDecode]
  · rw [if_neg hdup]
    obtain ⟨w, hw⟩ := Option.ne_none_iff_exists.mp hdup
    rcases hct with h | h | h | h | h
    · simp [step_row_loop, get_column_name, hname, get_column_type, h,
        step_row_col, get_int, hins, ← hw]
    · simp [step_row_loop, get_column_name, hname, get_column_type, h,
        step_row_col, get_f64, hins, ← hw]
    · obtain ⟨s, hs⟩ := Option.isSome_iff_exists.mp (htext h)
      simp [step_row_loop, get_column_name, hname, get_column_type, h,
        step_row_col, get_text, hs, hins, ← hw]
    · obtain ⟨b, hb⟩ := Option.isSome_iff_exists.mp (hblob h)
      simp [step_row_loop, get_column_name, hname, get_column_type, h,
        step_row_col, get_blob, hb, hins, ← hw]
    · simp [step_row_loop, get_column_name, hname, get_column_type, h,
        step_row_col, hins, ← hw]

/-! ## The `step_row` loop on well-formed, duplicate-free columns -/

theorem step_row_loop_ok_spec (e : Engine) (nm : Nat → String) :
    ∀ (fuel i : Nat) (sqlrow : RowMap),
      (∀ j, i ≤ j → j < i + fuel → colOk e nm j) →
      (∀ j, i ≤ j → j < i + fuel → lookupRow sqlrow (nm j) = none) →
      (∀ j k, i ≤ j → j < k → k < i + fuel → nm j ≠ nm k) →
      (step_row_loop e fuel i sqlrow).1 =
        .ok (sqlrow ++ (List.range fuel).map
          fun t => (nm (i + t), (specDecode e (i + t)).getD .Null)) := by
  intro fuel
  induction fuel with
  | zero =>
    intro i sqlrow _ _ _
    simp [step_row_loop]
  | succ fuel ih =>
    intro i sqlrow hcols hfresh hinj
    rw [step_row_loop_succ_fst e nm fuel i sqlrow (hcols i le_rfl (by omega))]
    rw [if_pos (hfresh i le_rfl (by omega))]
    rw [ih (i + 1) (sqlrow ++ [(nm i, (specDecode e i).getD .Null)]) ?h1 ?h2 ?h3]
    · rw [List.append_assoc]
      congr 1
      rw [List.range_succ_eq_map]
      simp only [List.map_cons, List.map_map, List.singleton_append, Nat.add_zero]
      congr 1
      congr 1
      apply List.map_congr_left
      intro t _
      simp only [Function.comp]
      have harith : i + 1 + t = i + (t + 1) := by omega
      rw [harith]
    case h1 =>
      intro j hj hj2
      exact hcols j (by omega) (by omega)
    case h2 =>
      intro j hj hj2
      have hne : nm i ≠ nm j := hinj i j le_rfl (by omega) (by omega)
      rw [lookupRow_append_of_none _ _ _ (hfresh j (by omega) (by omega))]
      simp [lookupRow, hne]
    case h3 =>
      intro j k hj hjk hk
      exact hinj j k (by omega) hjk (by omega)

theorem step_row_loop_dup (e : Engine) (nm : Nat → String) :
    ∀ (fuel i : Nat) (sqlrow : RowMap),
      (∀ j, i ≤ j → j < i + fuel → colOk e nm j) →
      ((∃ j k, i ≤ j ∧ j < k ∧ k < i + fuel ∧ nm j = nm k)
        ∨ (∃ k, i ≤ k ∧ k < i + fuel ∧ lookupRow sqlrow (nm k) ≠ none)) →
      (step_row_loop e fuel i sqlrow).1 =
        .panicked "Duplicate column name for sqlrow!" := by
  intro fuel
  induction fuel with
  | zero =>
    intro i sqlrow _ hdup
    exfalso
    rcases hdup with ⟨j, k, hij, hjk, hk, _⟩ | ⟨k, hik, hk, _⟩ <;> omega
  | succ fuel ih =>
    intro i sqlrow hcols hdup
    rw [step_row_loop_succ_fst e nm fuel i sqlrow (hcols i le_rfl (by omega))]
    by_cases hfr : lookupRow sqlrow (nm i) = none
    · rw [if_pos hfr]
      apply ih (i + 1)
      · intro j hj hj2
        exact hcols j (by omega) (by omega)
      · rcases hdup with ⟨j, k, hij, hjk, hk, heq⟩ | ⟨k, hik, hk, hmem⟩
        · by_cases hji : j = i
          · subst hji
            right
            refine ⟨k, by omega, by omega, ?_⟩
            rw [lookupRow_append_of_none _ _ _ (by rw [← heq]; exact hfr)]
            simp [lookupRow, heq]
          · left
            exact ⟨j, k, by omega, hjk, by omega, heq⟩
        · by_cases hki : k = i
          · subst hki
            exact absurd hfr hmem
          · right
            refine ⟨k, by omega, by omega, ?_⟩
            obtain ⟨w, hw⟩ := Option.ne_none_iff_exists.mp hmem
            rw [lookupRow_append_of_some _ _ _ w hw.symm]
            simp
    · rw [if_neg hfr]

/-! ## Success of the loop forces one fresh insertion per column -/

theorem step_row_col_ok (e : Engine) (i : Nat) (name : String) (ct : ColumnType)
    (sqlrow : RowMap) (res : Option BindArg × RowMap)
    (h : (step_row_col e i name ct sqlrow).1 = .ok res) :
    ∃ v, res = insertRow sqlrow name v := by
  cases ct
  · simp only [step_row_col, get_int] at h
    simp at h
    exact ⟨_, h.symm⟩
  · simp only [step_row_col, get_f64] at h
    simp at h
    exact ⟨_, h.symm⟩
  · simp only [step_row_col, get_text] at h
    rcases hp : e.columnTextPtr i with _ | s <;> simp [hp] at h
    exact ⟨_, h.symm⟩
  · simp only [step_row_col, get_blob] at h
    rcases hp : e.columnBlobPtr i with _ | b <;> simp [hp] at h
    exact ⟨_, h.symm⟩
  · simp only [step_row_col] at h
    simp at h
    exact ⟨_, h.symm⟩

theorem step_row_loop_ok_inv (e : Engine) :
    ∀ (fuel i : Nat) (sqlrow : RowMap) (r : RowMap),
      (step_row_loop e fuel i sqlrow).1 = .ok r →
      r.length = sqlrow.length + fuel ∧
        ((sqlrow.map Prod.fst).Nodup → (r.map Prod.fst).Nodup) := by
  intro fuel
  induction fuel with
  | zero =>
    intro i sqlrow r h
    simp only [step_row_loop] at h
    simp at h
    subst h
    simp
  | succ fuel ih =>
    intro i sqlrow r h
    simp only [step_row_loop] at h
    rcases hn : (get_column_name e i).1 with name | msg <;> rw [hn] at h <;>
      dsimp only at h
    · rcases ht : (get_column_type e i).1 with ct | msg <;> rw [ht] at h <;>
        dsimp only at h
      · rcases hd : (step_row_col e i name ct sqlrow).1 with res | msg <;>
          rw [hd] at h <;> dsimp only at h
        · by_cases hnone : res.1.isNone = true
          · simp only [hnone, if_true] at h
            obtain ⟨v, hv⟩ := step_row_col_ok e i name ct sqlrow res hd
            have hres1 : res.1 = lookupRow sqlrow name := by
              rw [hv]
              exact insertRow_fst sqlrow name v
            have hlk : lookupRow sqlrow name = none := by
              rw [← hres1]
              exact Option.isNone_iff_eq_none.mp hnone
            have hres2 : res.2 = sqlrow ++ [(name, v)] := by
              rw [hv]
              exact insertRow_snd_of_none sqlrow name v hlk
            obtain ⟨hlen, hnd⟩ := ih (i + 1) res.2 r h
            constructor
            · rw [hlen, hres2]
              simp
              omega
            · intro hsq
              apply hnd
              rw [hres2]
              simp only [List.map_append, List.map_cons, List.map_nil]
              rw [List.nodup_append]
              refine ⟨hsq, by simp, ?_⟩
              intro a ha hb
              simp at hb
              rw [hb] at ha
              exact (lookupRow_eq_none_iff sqlrow name).mp hlk ha
          · simp only [hnone, if_false] at h
            simp at h
        · simp at h
      · simp at h
    · simp at h

/-! ## The `bind_params` loop -/

theorem bind_params_loop_allok (e : Engine) :
    ∀ (vs : List BindArg) (i : Nat),
      (∀ k, k < vs.length → e.bindResult (bindCallOf (i + k) (vs.getD k .Null)) = .SQLITE_OK) →
      bind_params_loop e i vs =
        (.SQLITE_OK, (List.range vs.length).map fun k => bindCallOf (i + k) (vs.getD k .Null)) := by
  intro vs
  induction vs with
  | nil =>
    intro i _
    simp [bind_params_loop]
  | cons v rest ih =>
    intro i h
    have h0 : e.bindResult (bindCallOf i v) = .SQLITE_OK := by
      have := h 0 (by simp)
      simpa using this
    simp only [bind_params_loop, bind_param]
    rw [if_pos h0]
    rw [ih (i + 1) ?hrec]
    case hrec =>
      intro k hk
      have := h (k + 1) (by simpa using Nat.succ_lt_succ hk)
      have harith : i + (k + 1) = i + 1 + k := by omega
      rw [harith, List.getD_cons_succ] at this
      exact this
    congr 1
    simp only [List.length_cons, List.singleton_append]
    rw [List.range_succ_eq_map]
    simp only [List.map_cons, List.map_map, Nat.add_zero, List.getD_cons_zero]
    congr 1
    apply List.map_congr_left
    intro t _
    simp only [Function.comp, List.getD_cons_succ]
    have harith : i + 1 + t = i + (t + 1) := by omega
    rw [harith]

theorem bind_params_loop_fail (e : Engine) :
    ∀ (vs : List BindArg) (i f : Nat),
      f < vs.length →
      (∀ k, k < f → e.bindResult (bindCallOf (i + k) (vs.getD k .Null)) = .SQLITE_OK) →
      e.bindResult (bindCallOf (i + f) (vs.getD f .Null)) ≠ .SQLITE_OK →
      bind_params_loop e i vs =
        (e.bindResult (bindCallOf (i + f) (vs.getD f .Null)),
          (List.range (f + 1)).map fun k => bindCallOf (i + k) (vs.getD k .Null)) := by
  intro vs
  induction vs with
  | nil =>
    intro i f hf
    simp at hf
  | cons v rest ih =>
    intro i f hf hok hbad
    cases f with
    | zero =>
      have hbad0 : e.bindResult (bindCallOf i v) ≠ .SQLITE_OK := by simpa using hbad
      simp only [bind_params_loop, bind_param]
      rw [if_neg hbad0]
      simp [List.range_succ, List.getD_cons_zero]
    | succ f =>
      have h0 : e.bindResult (bindCallOf i v) = .SQLITE_OK := by
        have := hok 0 (by omega)
        simpa using this
      simp only [bind_params_loop, bind_param]
      rw [if_pos h0]
      rw [ih (i + 1) f ?hl ?hm ?hb]
      case hl => simpa using Nat.lt_of_succ_lt_succ hf
      case hm =>
        intro k hk
        have := hok (k + 1) (by omega)
        have harith : i + (k + 1) = i + 1 + k := by omega
        rw [harith, List.getD_cons_succ] at this
        exact this
      case hb =>
        have harith : i + (f + 1) = i + 1 + f := by omega
        rw [harith, List.getD_cons_succ] at hbad
        exact hbad
      have harith : i + 1 + f = i + (f + 1) := by omega
      simp only [List.length_cons, List.singleton_append, List.getD_cons_succ, harith]
      congr 1
      conv_rhs => rw [List.range_succ_eq_map]
      simp only [List.map_cons, List.map_map, Nat.add_zero, List.getD_cons_zero]
      congr 1
      apply List.map_congr_left
      intro t _
      simp only [Function.comp, List.getD_cons_succ]
      have harith2 : i + 1 + t = i + (t + 1) := by omega
      rw [harith2]

theorem bind_params_loop_trace_bind (e : Engine) :
    ∀ (vs : List BindArg) (i : Nat) (c : NativeCall),
      c ∈ (bind_params_loop e i vs).2 → ∃ k v, c = bindCallOf k v := by
  intro vs
  induction vs with
  | nil =>
    intro i c hc
    simp [bind_params_loop] at hc
  | cons v rest ih =>
    intro i c hc
    simp only [bind_params_loop, bind_param] at hc
    by_cases h0 : e.bindResult (bindCallOf i v) = .SQLITE_OK
    · rw [if_pos h0] at hc
      simp only [List.singleton_append, List.mem_cons] at hc
      rcases hc with hc | hc
      · exact ⟨i, v, hc⟩
      · exact ih (i + 1) c hc
    · rw [if_neg h0] at hc
      simp at hc
      exact ⟨i, v, hc⟩

/-! ## Trace shape of `step_row` and the other public methods -/

theorem step_row_loop_count_step (e : Engine) (fuel i : Nat) (sqlrow : RowMap) :
    (step_row_loop e fuel i sqlrow).2.count NativeCall.step = 0 :=
  List.count_eq_zero.mpr fun hmem => by
    have := step_row_loop_trace e fuel i sqlrow _ hmem
    simp [isColumnCall] at this

theorem step_row_count_step (e : Engine) : (step_row e).2.count NativeCall.step = 1 := by
  simp only [step_row, step, get_column_count]
  by_cases hr : e.stepResult = .SQLITE_ROW
  · rcases hl : (step_row_loop e e.dataCount 0 []).1 with a | m <;>
      simp [hr, hl, List.count_append, step_row_loop_count_step]
  · by_cases hd : e.stepResult = .SQLITE_DONE <;> simp [hr, hd]

theorem step_row_trace_mem (e : Engine) (c : NativeCall) (hc : c ∈ (step_row e).2) :
    c = .step ∨ c = .dataCount ∨ isColumnCall c = true := by
  simp only [step_row, step, get_column_count] at hc
  by_cases hr : e.stepResult = .SQLITE_ROW
  · rcases hl : (step_row_loop e e.dataCount 0 []).1 with a | m <;>
      simp only [hr, hl, eq_self_iff_true, if_true] at hc <;>
      rw [List.mem_append, List.mem_append] at hc <;>
      rcases hc with (hc | hc) | hc
    · simp at hc; exact Or.inl hc
    · simp at hc; exact Or.inr (Or.inl hc)
    · exact Or.inr (Or.inr (step_row_loop_trace e _ _ _ c hc))
    · simp at hc; exact Or.inl hc
    · simp at hc; exact Or.inr (Or.inl hc)
    · exact Or.inr (Or.inr (step_row_loop_trace e _ _ _ c hc))
  · by_cases hd : e.stepResult = .SQLITE_DONE <;> simp [hr, hd] at hc <;>
      exact Or.inl hc

theorem get_column_names_trace_mem (e : Engine) (c : NativeCall)
    (hc : c ∈ (get_column_names e).2) :
    c = .dataCount ∨ isColumnCall c = true := by
  simp only [get_column_names, get_column_count] at hc
  rw [List.mem_append] at hc
  rcases hc with hc | hc
  · simp at hc; exact Or.inl hc
  · exact Or.inr (get_column_names_loop_trace e _ _ c hc)

theorem opCalls_count_finalize (e : Engine) (op : CursorOp) :
    (opCalls e op).count NativeCall.finalize = 0 := by
  apply List.count_eq_zero.mpr
  intro hmem
  cases op with
  | opReset => simp [opCalls, reset] at hmem
  | opClearBindings => simp [opCalls, clear_bindings] at hmem
  | opStep => simp [opCalls, step] at hmem
  | opStepRow =>
    rcases step_row_trace_mem e _ hmem with h | h | h <;> simp [isColumnCall] at h
  | opGetBlob i => simp [opCalls, get_blob] at hmem
  | opGetInt i => simp [opCalls, get_int] at hmem
  | opGetI64 i => simp [opCalls, get_i64] at hmem
  | opGetF64 i => simp [opCalls, get_f64] at hmem
  | opGetText i => simp [opCalls, get_text] at hmem
  | opGetBindIndex name => simp [opCalls, get_bind_index] at hmem
  | opGetColumnCount => simp [opCalls, get_column_count] at hmem
  | opGetColumnName i =>
    simp only [opCalls] at hmem
    rw [get_column_name_trace] at hmem
    simp at hmem
  | opGetColumnType i => simp [opCalls, get_column_type] at hmem
  | opGetColumnNames =>
    rcases get_column_names_trace_mem e _ hmem with h | h <;> simp [isColumnCall] at h
  | opBindParams values =>
    obtain ⟨k, v, hkv⟩ := bind_params_loop_trace_bind e values 1 _ hmem
    cases v <;> simp [bindCallOf] at hkv
  | opBindParam i v =>
    simp only [opCalls, bind_param] at hmem
    simp at hmem
    cases v <;> simp [bindCallOf] at hmem

/-! ## Claim theorems -/

/-- C2: over a whole cursor lifetime — any sequence of public method
invocations followed by destruction — the native statement handle is
finalized exactly once: the destructor performs the single `finalize`
call unconditionally, and no public method ever emits one. -/
theorem cursor_finalize_once (steps : List (Engine × CursorOp)) :
    (lifetimeTrace steps).count NativeCall.finalize = 1 := by
  unfold lifetimeTrace
  rw [List.count_append]
  have hz : ((steps.map fun p => opCalls p.1 p.2).flatten).count NativeCall.finalize = 0 := by
    induction steps with
    | nil => rfl
    | cons p rest ih =>
      simp only [List.map_cons, List.flatten_cons, List.count_append, ih,
        opCalls_count_finalize]
  rw [hz]
  decide

/-- C7: `reset`, `clear_bindings`, `step` and `bind_param` each make exactly
one engine call and hand the engine's result code back verbatim —
unmodified, never discarded, reinterpreted, or retried. -/
theorem passthrough_codes (e : Engine) :
    reset e = (e.resetResult, [.reset])
    ∧ clear_bindings e = (e.clearBindingsResult, [.clearBindings])
    ∧ step e = (e.stepResult, [.step])
    ∧ ∀ (i : Nat) (v : BindArg),
        bind_param e i v = (e.bindResult (bindCallOf i v), [bindCallOf i v]) :=
  ⟨rfl, rfl, rfl, fun _ _ => rfl⟩

/-- C8: `bind_params` on the empty value sequence returns `SQLITE_OK` and
performs no engine bind call at all (its native-call trace is empty), so the
statement's bindings are untouched. -/
theorem bind_params_nil (e : Engine) : bind_params e [] = (.SQLITE_OK, []) := rfl

/-- C5: `get_text` and `get_blob` return `none` exactly when the engine
reports a null data pointer, and `some` of the value whenever the pointer is
non-null — so a caller can distinguish the absent result from a typed empty
string/blob (`some ""` / `some []`), which is itself distinct from the SQL
`Null` row value. -/
theorem text_blob_null_decode (e : Engine) (i : Nat) :
    ((get_text e i).1 = none ↔ e.columnTextPtr i = none)
    ∧ (∀ s, e.columnTextPtr i = some s → (get_text e i).1 = some s)
    ∧ ((get_blob e i).1 = none ↔ e.columnBlobPtr i = none)
    ∧ (∀ b, e.columnBlobPtr i = some b → (get_blob e i).1 = some b) := by
  refine ⟨?_, ?_, ?_, ?_⟩
  · rcases h : e.columnTextPtr i with _ | s <;> simp [get_text, h]
  · intro s hs
    simp [get_text, hs]
  · rcases h : e.columnBlobPtr i with _ | b <;> simp [get_blob, h]
  · intro b hb
    simp [get_blob, hb]

theorem text_blob_null_decode_witness :
    (get_text eDemo 0).1 = none ∧ (get_text eDemo 1).1 = some "x"
    ∧ (get_blob eDemo 1).1 = none ∧ (get_blob eDemo 0).1 = some [0, 1, 2, 255] :=
  ⟨(text_blob_null_decode eDemo 0).1.mpr rfl,
   (text_blob_null_decode eDemo 1).2.1 "x" rfl,
   (text_blob_null_decode eDemo 1).2.2.1.mpr rfl,
   (text_blob_null_decode eDemo 0).2.2.2 [0, 1, 2, 255] rfl⟩

/-- C6: `get_column_type` maps the raw engine type codes 1..5 onto exactly
the five variants `SQLITE_INTEGER`/`SQLITE_FLOAT`/`SQLITE_TEXT`/
`SQLITE_BLOB`/`SQLITE_NULL`, and for any raw code outside this closed set it
panics instead of propagating a result code. -/
theorem column_type_closed (e : Engine) (i : Nat) :
    (e.columnTypeRaw i = 1 → (get_column_type e i).1 = .ok .SQLITE_INTEGER)
    ∧ (e.columnTypeRaw i = 2 → (get_column_type e i).1 = .ok .SQLITE_FLOAT)
    ∧ (e.columnTypeRaw i = 3 → (get_column_type e i).1 = .ok .SQLITE_TEXT)
    ∧ (e.columnTypeRaw i = 4 → (get_column_type e i).1 = .ok .SQLITE_BLOB)
    ∧ (e.columnTypeRaw i = 5 → (get_column_type e i).1 = .ok .SQLITE_NULL)
    ∧ (e.columnTypeRaw i < 1 ∨ 5 < e.columnTypeRaw i →
        (get_column_type e i).1 =
          .panicked "sqlite internal error: Got an unknown column type back from the library.") := by
  refine ⟨?_, ?_, ?_, ?_, ?_, ?_⟩ <;> intro h
  · simp [get_column_type, h]
  · simp [get_column_type, h]
  · simp [get_column_type, h]
  · simp [get_column_type, h]
  · simp [get_column_type, h]
  · rcases h with h | h <;>
      simp [get_column_type, (show ¬ e.columnTypeRaw i = 1 by omega),
        (show ¬ e.columnTypeRaw i = 2 by omega), (show ¬ e.columnTypeRaw i = 3 by omega),
        (show ¬ e.columnTypeRaw i = 4 by omega), (show ¬ e.columnTypeRaw i = 5 by omega)]

theorem column_type_closed_witness :
    (get_column_type eTypes 1).1 = .ok .SQLITE_INTEGER
    ∧ (get_column_type eTypes 2).1 = .ok .SQLITE_FLOAT
    ∧ (get_column_type eTypes 3).1 = .ok .SQLITE_TEXT
    ∧ (get_column_type eTypes 4).1 = .ok .SQLITE_BLOB
    ∧ (get_column_type eTypes 5).1 = .ok .SQLITE_NULL
    ∧ (get_column_type eTypes 9).1 =
        .panicked "sqlite internal error: Got an unknown column type back from the library." :=
  ⟨(column_type_closed eTypes 1).1 (by decide),
   (column_type_closed eTypes 2).2.1 (by decide),
   (column_type_closed eTypes 3).2.2.1 (by decide),
   (column_type_closed eTypes 4).2.2.2.1 (by decide),
   (column_type_closed eTypes 5).2.2.2.2.1 (by decide),
   (column_type_closed eTypes 9).2.2.2.2.2 (Or.inr (by decide))⟩

/-- C10: `get_column_name` offers no `Option` at its public interface — it
is total only under the precondition that the engine's name pointer is
non-null, in which case it returns the name directly; on a null name
pointer the underlying `CString` access fails the task instead of returning
an absent value. -/
theorem column_name_no_option (e : Engine) (i : Nat) :
    (∀ s, e.columnNamePtr i = some s → get_column_name e i = (.ok s, [.columnName i]))
    ∧ (e.columnNamePtr i = none →
        (get_column_name e i).1 = .panicked "CString is null") := by
  constructor
  · intro s hs
    simp [get_column_name, hs]
  · intro h
    simp [get_column_name, h]

theorem column_name_no_option_witness :
    get_column_name eDemo 0 = (.ok "id", [.columnName 0])
    ∧ (get_column_name eDemo 5).1 = .panicked "CString is null" :=
  ⟨(column_name_no_option eDemo 0).1 "id" rfl,
   (column_name_no_option eDemo 5).2 rfl⟩

/-- C1: `step_row` calls `step` exactly once; when the result is
`SQLITE_ROW` (and the engine's per-column responses are well-formed with
pairwise-distinct names) it decodes every column `0 ≤ i < column count`
according to its reported dynamic type into a fresh row keyed by the
column names, returning `Ok(Some(row))`; when the result is `SQLITE_DONE`
it returns `Ok(None)`; for any other code it returns `Err` of exactly that
code and its whole trace is the single `step` call — no column is read. -/
theorem step_row_spec (e : Engine) (nm : Nat → String)
    (hcols : ∀ j, j < e.dataCount → colOk e nm j)
    (hinj : ∀ k, k < e.dataCount → ∀ j, j < k → nm j ≠ nm k) :
    (step_row e).2.count NativeCall.step = 1
    ∧ (e.stepResult = .SQLITE_ROW →
        (step_row e).1 = .ok (.ok (some (rowSpec e nm e.dataCount))))
    ∧ (e.stepResult = .SQLITE_DONE → step_row e = (.ok (.ok none), [.step]))
    ∧ (e.stepResult ≠ .SQLITE_ROW → e.stepResult ≠ .SQLITE_DONE →
        step_row e = (.ok (.error e.stepResult), [.step])) := by
  refine ⟨step_row_count_step e, ?_, ?_, ?_⟩
  · intro hr
    have hloop := step_row_loop_ok_spec e nm e.dataCount 0 []
      (by intro j hj hj2; exact hcols j (by omega))
      (by intro j hj hj2; rfl)
      (by intro j k hj hjk hk; exact hinj k (by omega) j hjk)
    rcases hl : (step_row_loop e e.dataCount 0 []).1 with a | m <;> rw [hl] at hloop
    · have ha : a = rowSpec e nm e.dataCount := by
        simpa [rowSpec] using hloop
      simp [step_row, step, get_column_count, hr, hl, ha]
    · simp at hloop
  · intro hd
    have hne : ResultCode.SQLITE_DONE ≠ ResultCode.SQLITE_ROW := by decide
    simp [step_row, step, hd, hne]
  · intro h1 h2
    simp [step_row, step, h1, h2]

theorem step_row_spec_witness :
    (step_row eDemo).1 = .ok (.ok (some (rowSpec eDemo nmDemo eDemo.dataCount))) :=
  (step_row_spec eDemo nmDemo (by decide) (by decide)).2.1 rfl

/-- C4: during row materialization, if two columns of the current row
decode to the same name, `step_row` fails fatally with the duplicate-name
assertion message — a panic, not a recoverable `Err` code and not a silent
overwrite of the earlier value. -/
theorem step_row_dup_panic (e : Engine) (nm : Nat → String)
    (hstep : e.stepResult = .SQLITE_ROW)
    (hcols : ∀ j, j < e.dataCount → colOk e nm j)
    (hdup : ∃ j k, j < k ∧ k < e.dataCount ∧ nm j = nm k) :
    (step_row e).1 = .panicked "Duplicate column name for sqlrow!" := by
  obtain ⟨j, k, hjk, hk, heq⟩ := hdup
  have hloop := step_row_loop_dup e nm e.dataCount 0 []
    (by intro j2 hj2 hj22; exact hcols j2 (by omega))
    (Or.inl ⟨j, k, by omega, hjk, by omega, heq⟩)
  rcases hl : (step_row_loop e e.dataCount 0 []).1 with a | m <;> rw [hl] at hloop
  · simp at hloop
  · have hm : m = "Duplicate column name for sqlrow!" := by simpa using hloop
    subst hm
    simp [step_row, step, get_column_count, hstep, hl]

theorem step_row_dup_panic_witness :
    (step_row eDup).1 = .panicked "Duplicate column name for sqlrow!" :=
  step_row_dup_panic eDup (fun _ => "x") rfl (by decide)
    ⟨0, 1, by decide, by decide, rfl⟩

/-- C9: any row that `step_row` actually returns as `Ok(Some(row))` has
exactly `get_column_count` entries, keyed by pairwise-distinct column
names — never fewer and never more (each loop iteration must have inserted
under a fresh key, or the assertion would have fired). -/
theorem step_row_entry_count (e : Engine) (row : RowMap)
    (h : (step_row e).1 = .ok (.ok (some row))) :
    row.length = e.dataCount ∧ (row.map Prod.fst).Nodup := by
  by_cases hr : e.stepResult = .SQLITE_ROW
  · rcases hl : (step_row_loop e e.dataCount 0 []).1 with a | m
    · have ha : a = row := by
        simp [step_row, step, get_column_count, hr, hl] at h
        exact h
      subst ha
      have hinv := step_row_loop_ok_inv e e.dataCount 0 [] a hl
      constructor
      · simpa using hinv.1
      · exact hinv.2 (by simp)
    · simp [step_row, step, get_column_count, hr, hl] at h
  · by_cases hd : e.stepResult = .SQLITE_DONE <;>
      simp [step_row, step, hr, hd] at h

theorem step_row_entry_count_witness :
    ([("id", BindArg.Integer 7), ("name", BindArg.Text "x")] : RowMap).length = eDemo.dataCount
    ∧ (([("id", BindArg.Integer 7), ("name", BindArg.Text "x")] : RowMap).map
        Prod.fst).Nodup :=
  step_row_entry_count eDemo [("id", BindArg.Integer 7), ("name", BindArg.Text "x")] rfl

/-- C3: `bind_params` binds the `k`-th value (1-based) of the sequence at
positional parameter index `k`, in sequence order: when every individual
bind answers `SQLITE_OK` it returns `SQLITE_OK` having issued exactly the
bind calls for indices `1..N` in order; when some bind fails first at
0-based position `f`, it returns that first non-OK code verbatim and its
trace stops at that call — none of the remaining values is bound. -/
theorem bind_params_spec (e : Engine) (vs : List BindArg) :
    ((∀ k, k < vs.length → e.bindResult (bindCallAt vs k) = .SQLITE_OK) →
      bind_params e vs = (.SQLITE_OK, (List.range vs.length).map (bindCallAt vs)))
    ∧ (∀ f, f < vs.length →
        (∀ k, k < f → e.bindResult (bindCallAt vs k) = .SQLITE_OK) →
        e.bindResult (bindCallAt vs f) ≠ .SQLITE_OK →
        bind_params e vs =
          (e.bindResult (bindCallAt vs f), (List.range (f + 1)).map (bindCallAt vs))) := by
  constructor
  · intro h
    have := bind_params_loop_allok e vs 1 ?hok
    case hok =>
      intro k hk
      have hx := h k hk
      rw [bindCallAt] at hx
      have harith : k + 1 = 1 + k := by omega
      rw [harith] at hx
      exact hx
    rw [bind_params, this]
    congr 1
    apply List.map_congr_left
    intro t _
    rw [bindCallAt]
    have harith : 1 + t = t + 1 := by omega
    rw [harith]
  · intro f hf hok hbad
    have := bind_params_loop_fail e vs 1 f hf ?hok ?hbad
    case hok =>
      intro k hk
      have hx := hok k hk
      rw [bindCallAt] at hx
      have harith : k + 1 = 1 + k := by omega
      rw [harith] at hx
      exact hx
    case hbad =>
      rw [bindCallAt] at hbad
      have harith : f + 1 = 1 + f := by omega
      rw [harith] at hbad
      exact hbad
    rw [bind_params, this]
    have harith : 1 + f = f + 1 := by omega
    rw [harith, ← bindCallAt]
    congr 1
    apply List.map_congr_left
    intro t _
    rw [bindCallAt]
    have harith2 : 1 + t = t + 1 := by omega
    rw [harith2]

theorem bind_params_spec_witness :
    bind_params eDemo [BindArg.Integer 1, BindArg.Text "a"]
      = (.SQLITE_OK, [.bindInt 1 1, .bindText 2 "a" true])
    ∧ bind_params eBindFail [BindArg.Integer 1, BindArg.Text "a", BindArg.Integer 2]
      = (.errorCode 25, [.bindInt 1 1, .bindText 2 "a" true]) :=
  ⟨(bind_params_spec eDemo [BindArg.Integer 1, BindArg.Text "a"]).1
      (fun _ _ => rfl),
   (bind_params_spec eBindFail [BindArg.Integer 1, BindArg.Text "a", BindArg.Integer 2]).2
      1 (by decide) (by decide) (by decide)⟩

end Rustsqlite
